import Mathlib

/-!
Verification of the batch Dropbox file retriever
(src/download_dropbox_files.py) against its specification.

Strings from the Python code are embedded as List Char; fallible
driver operations are embedded in an exception monad over a trace
state; functions keep the names of the Python functions they embed.
-/

/-! ## Python string primitives -/

/-- Whitespace predicate of the Python method str.strip (ASCII range). -/
def pyIsSpace (c : Char) : Bool :=
  c = ' ' || c = '\t' || c = '\n' || c = '\r' || c = '\x0b' || c = '\x0c'

/-- Lower-casing of one character, as the Python method str.lower acts on
the ASCII range. -/
def pyToLower (c : Char) : Char :=
  if 65 ≤ c.toNat ∧ c.toNat ≤ 90 then Char.ofNat (c.toNat + 32) else c

/-- Lower-casing of a string, as the Python method str.lower on ASCII text. -/
def pyLower (s : List Char) : List Char := s.map pyToLower

/-- The Python method str.strip with no argument: remove leading and
trailing whitespace. -/
def pyStrip (s : List Char) : List Char :=
  List.rdropWhile pyIsSpace (List.dropWhile pyIsSpace s)

/-! ## The sanitizer (DropboxDownloader.sanitize_filename, lines 168-176) -/

/-- The character class of the regular expression in sanitize_filename. -/
def forbiddenChars : List Char :=
  ['<', '>', ':', '"', '/', '\\', '|', '?', '*', ',']

/-- The re.sub call of sanitize_filename: replace every character of the
forbidden class by an underscore. -/
def replaceForbidden (s : List Char) : List Char :=
  s.map (fun c => if c ∈ forbiddenChars then '_' else c)

/-- The lower-cased legacy name compared against in sanitize_filename. -/
def legacyLower : List Char := "file, f1-00094_76399_0000000000_ssr.cwa".data

/-- The fixed target of the hard-coded legacy rename rule. -/
def legacyTarget : List Char := "f1-00094_76399_0000000000_ssr.cwa".data

/-- The historical display name of the legacy file as the spec quotes it. -/
def legacyRawName : List Char := "File, F1-00094_76399_0000000000_SSR.cwa".data

/-- DropboxDownloader.sanitize_filename: an empty (falsy) name yields
None; the one legacy name, compared after lower-casing, maps to its fixed
target; any other name has forbidden characters replaced and is stripped. -/
def sanitize_filename (s : List Char) : Option (List Char) :=
  if s = [] then none
  else if pyLower s = legacyLower then some legacyTarget
  else some (pyStrip (replaceForbidden s))

/-! ## The element locator (DropboxDownloader.get_search_input, lines 150-166) -/

/-- Sequential evaluation of an ordered selector list: the first selector
the driver resolves wins; later selectors are not consulted. -/
def firstResolve {α : Type} (resolve : List Char → Option α) : List (List Char) → Option α
  | [] => none
  | sel :: rest =>
    match resolve sel with
    | some e => some e
    | none => firstResolve resolve rest

/-- The ordered selector list of get_search_input. -/
def searchSelectors : List (List Char) :=
  ["[data-testid=\x27search-input\x27]".data,
   "input[placeholder*=\x27Search\x27]".data,
   ".search-input".data,
   "input[type=\x27search\x27]".data,
   "#search-input".data]

/-- DropboxDownloader.get_search_input: try each selector in order against
the driver (modelled as a resolution oracle from selector text to an
optional element handle) and return the first hit, or None. -/
def get_search_input (resolve : List Char → Option Nat) : Option Nat :=
  firstResolve resolve searchSelectors

/-! ## Download verification (DropboxDownloader.verify_download, lines 178-197) -/

/-- The polling loop of verify_download: one filesystem probe per second
of the remaining timeout budget; returns the outcome together with the
second at which the loop stopped probing. -/
def verifyLoop (present : Nat → Bool) : Nat → Nat → Bool × Nat
  | t, 0 => (false, t)
  | t, fuel + 1 => if present t then (true, t) else verifyLoop present (t + 1) fuel

/-- DropboxDownloader.verify_download: sanitize the name first; the falsy
guard of line 181 returns False at once both for None and for the empty
string (a whitespace-only input). Otherwise poll the destination folder,
one probe per elapsed second, until the file exists or the timeout
elapses. The filesystem is modelled as an oracle from expected file name
and second to existence. -/
def verify_download (filename : List Char) (fs : List Char → Nat → Bool)
    (timeout : Nat) : Bool :=
  match sanitize_filename filename with
  | none => false
  | some [] => false
  | some (ch :: rest) => (verifyLoop (fs (ch :: rest)) 0 timeout).1

/-! ## Session teardown (cleanup, lines 403-407, and the main block) -/

/-- Names of the methods defined in the body of class DropboxDownloader
(every def indented inside the class statement, lines 14-402). -/
def dropboxDownloaderMethods : List String :=
  ["__init__", "setup_driver", "login_to_dropbox", "clear_search_context",
   "get_search_input", "sanitize_filename", "verify_download",
   "attempt_download", "search_and_download"]

/-- Names of the functions defined at module level (column zero) after the
class body: cleanup (line 403) and run (line 409) are dedented out of the
class even though both take self and carry method docstrings. -/
def moduleLevelFunctions : List String := ["cleanup", "run"]

/-- Attribute lookup on a DropboxDownloader instance resolves names
against the class body (instances get no extra attributes in this
program); module-level functions are not visible on the instance. -/
def instanceHasAttr (name : String) : Bool := name ∈ dropboxDownloaderMethods

/-- The finally block of the main program, line 471: evaluate
first_downloader.cleanup() and only on successful attribute resolution
reach driver.quit(). The value records whether the driver was quit;
the error is the AttributeError text Python raises. -/
def finallyTeardown : Except String Bool :=
  if instanceHasAttr "cleanup" then Except.ok true
  else Except.error "AttributeError: cleanup"

/-! ## The download orchestrator (DropboxDownloader.attempt_download,
lines 199-282)

Driver interactions are embedded in an exception monad over a trace
state: each primitive records an event and then either succeeds or raises
a driver fault, and the try blocks of the Python code become explicit
handlers. The environment fixes, per retry attempt (and per selector
where relevant), which interactions succeed and how verification turns
out. -/

/-- A driver-level exception (selenium raising inside an interaction). -/
inductive Fault
  | driverFault
  deriving DecidableEq

/-- Trace events of one attempt_download call: a is the attempt counter
(1-based), i the index into the context-menu selector list. -/
inductive Ev where
  | attemptStart (a : Nat)
  | contextClick (a : Nat)
  | findMenu (a i : Nat)
  | clickMenu (a i : Nat)
  | jsClickMenu (a i : Nat)
  | verifyMenu (a i : Nat) (ok : Bool)
  | doubleClick (a : Nat)
  | findBtn (a : Nat)
  | clickBtn (a : Nat)
  | jsClickBtn (a : Nat)
  | verifyBtn (a : Nat) (ok : Bool)
  | back (a : Nat)
  | bodyClick (a : Nat)
  | warnAttempt (a : Nat)
  | warnFileView (a : Nat)
  | retryPause
  deriving DecidableEq

/-- The monad of the embedding: driver faults over an event-trace state. -/
abbrev M (α : Type) : Type := ExceptT Fault (StateM (List Ev)) α

/-- Run an embedded computation on an initial trace. -/
def runM {α : Type} (x : M α) (s : List Ev) : Except Fault α × List Ev := x.run s

/-- Record an event. -/
def emit (ev : Ev) : M Unit := ExceptT.mk (fun s => (Except.ok (), s ++ [ev]))

/-- One driver primitive: the interaction is recorded, then succeeds or
raises according to the environment flag. -/
def prim (ok : Bool) (ev : Ev) : M Unit :=
  ExceptT.mk (fun s =>
    (if ok then Except.ok () else Except.error Fault.driverFault, s ++ [ev]))

/-- A Python try/except block that discards the exception value. -/
def pyTry {α : Type} (x h : M α) : M α :=
  ExceptT.mk (fun s =>
    match x.run s with
    | (Except.ok a, s1) => (Except.ok a, s1)
    | (Except.error _, s1) => h.run s1)

/-- The per-attempt environment of attempt_download: which driver
interaction succeeds, and what verify_download returns after each
download trigger, indexed by attempt number and, for the context-menu
strategy, the selector index. -/
structure DriverEnv where
  contextClickOk : Nat → Bool
  findMenuOk : Nat → Nat → Bool
  clickMenuOk : Nat → Nat → Bool
  jsClickMenuOk : Nat → Nat → Bool
  verifyMenuOk : Nat → Nat → Bool
  doubleClickOk : Nat → Bool
  findBtnOk : Nat → Bool
  clickBtnOk : Nat → Bool
  jsClickBtnOk : Nat → Bool
  verifyBtnOk : Nat → Bool
  backOk : Nat → Bool
  bodyClickOk : Nat → Bool

/-- A direct element click with the execute_script fallback of the code:
if the direct click raises, the synthetic click is tried; if that raises
too the exception propagates to the enclosing handler. -/
def clickWithFallback (direct js : Bool) (evD evJ : Ev) : M Unit :=
  pyTry (prim direct evD) (prim js evJ)

/-- The try body of one iteration of the context-menu selector loop
(lines 222-239): find the download option, click it (with fallback),
then verify. -/
def stratABody (env : DriverEnv) (a i : Nat) : M Bool := do
  prim (env.findMenuOk a i) (Ev.findMenu a i)
  clickWithFallback (env.clickMenuOk a i) (env.jsClickMenuOk a i)
    (Ev.clickMenu a i) (Ev.jsClickMenu a i)
  emit (Ev.verifyMenu a i (env.verifyMenuOk a i))
  pure (env.verifyMenuOk a i)

/-- One iteration of the context-menu selector loop (lines 221-241):
verification failure logs and moves to the next selector, any raise is
swallowed by the per-selector except and moves on as well. Returns True
exactly when this selector led to a verified download (the return True of
line 237). -/
def stratASel (env : DriverEnv) (a i : Nat) : M Bool :=
  pyTry (stratABody env a i) (pure false)

/-- Sequential evaluation of the selector iterations with the early
return of line 237. -/
def firstTrueM : List (M Bool) → M Bool
  | [] => pure false
  | x :: xs => do
    let r ← x
    if r then pure true else firstTrueM xs

/-- Strategy A (lines 206-241): the context-menu download path over the
seven download selectors. -/
def strategyA (env : DriverEnv) (a : Nat) : M Bool :=
  firstTrueM ((List.range 7).map (stratASel env a))

/-- The try body of strategy B (lines 244-263): open the detail view by
double click, find the download button, click it (with fallback), verify,
and navigate back. Note the code reaches driver.back() only after the
button was found and clicked. -/
def stratBBody (env : DriverEnv) (a : Nat) : M Bool := do
  prim (env.doubleClickOk a) (Ev.doubleClick a)
  prim (env.findBtnOk a) (Ev.findBtn a)
  clickWithFallback (env.clickBtnOk a) (env.jsClickBtnOk a)
    (Ev.clickBtn a) (Ev.jsClickBtn a)
  emit (Ev.verifyBtn a (env.verifyBtnOk a))
  if env.verifyBtnOk a then do
    prim (env.backOk a) (Ev.back a)
    pure true
  else do
    prim (env.backOk a) (Ev.back a)
    pure false

/-- Strategy B (lines 243-265): every raise inside the body is caught by
the except of line 264, which only logs. -/
def strategyB (env : DriverEnv) (a : Nat) : M Bool :=
  pyTry (stratBBody env a)
    (do
      emit (Ev.warnFileView a)
      pure false)

/-- One iteration of the retry loop of attempt_download (lines 204-279):
context click, strategy A, strategy B, the attempt-level except of line
267, and the context-menu dismissal of lines 271-275, which is skipped
exactly when the attempt returned successfully. -/
def attemptBody (env : DriverEnv) (a : Nat) : M Bool := do
  prim (env.contextClickOk a) (Ev.contextClick a)
  let ra ← strategyA env a
  if ra then pure true else strategyB env a

def attemptOnce (env : DriverEnv) (a : Nat) : M Bool := do
  emit (Ev.attemptStart a)
  let r ← pyTry (attemptBody env a)
    (do
      emit (Ev.warnAttempt a)
      pure false)
  if r then pure true
  else do
    pyTry (prim (env.bodyClickOk a) (Ev.bodyClick a)) (pure ())
    pure false

/-- DropboxDownloader.attempt_download: at most max_attempts = 2
iterations of the two-strategy sequence, with the retry pause of lines
277-279 between them, returning the first success or False. -/
def attempt_download (env : DriverEnv) : M Bool := do
  let r1 ← attemptOnce env 1
  if r1 then pure true
  else do
    emit Ev.retryPause
    let r2 ← attemptOnce env 2
    if r2 then pure true else pure false

/-- A whole attempt_download call from the empty trace. -/
def runAttempt (env : DriverEnv) : Except Fault Bool × List Ev :=
  runM (attempt_download env) []

/-! ## Totality: every fault raised inside attempt_download is caught -/

/-- A computation that returns normally on every start trace. -/
def MTotal {α : Type} (x : M α) : Prop :=
  ∀ s, ∃ a s1, runM x s = (Except.ok a, s1)

/-! ## Counting retry attempts -/

/-- Whether an event marks the start of one iteration of the retry loop. -/
def isStart (e : Ev) : Bool :=
  match e with
  | Ev.attemptStart _ => true
  | _ => false

/-- Number of retry-loop iterations recorded on a trace. -/
def countStarts (t : List Ev) : Nat := t.countP isStart

/-- A computation that records no retry-loop start. -/
def NoStarts {α : Type} (x : M α) : Prop :=
  ∀ s, countStarts (runM x s).2 = countStarts s

/-! ## The per-keyword candidate loop (search_and_download, lines 330-396) -/

/-- One search-result row: the text the driver returns for each of the
ten name selectors (None where find_element raises), the value of each of
the four fallback attributes (None where get_attribute returns None), the
driver environment its download attempt would run against, and whether
processing this row raises an unexpected per-row fault (caught by the
except of line 388). -/
structure Candidate where
  selText : Nat → Option (List Char)
  attrVal : Nat → Option (List Char)
  driverEnv : DriverEnv
  rowFault : Bool

/-- The name-selector loop of lines 349-356: the first selector whose
find_element succeeds supplies the text (even an empty text breaks the
loop; the falsy check afterwards then sends it to the attribute
fallback). -/
def firstText (f : Nat → Option (List Char)) : List Nat → Option (List Char)
  | [] => none
  | j :: rest =>
    match f j with
    | some t => some t
    | none => firstText f rest

/-- The attribute fallback loop of lines 359-368: the first attribute with
a truthy (non-empty) raw value is stripped and lower-cased; falsy values
move to the next attribute. -/
def firstAttr (f : Nat → Option (List Char)) : List Nat → Option (List Char)
  | [] => none
  | j :: rest =>
    match f j with
    | some v => if v = [] then firstAttr f rest else some v
    | none => firstAttr f rest

/-- Name derivation for one row: selector text (stripped, lower-cased)
when truthy, else the attribute fallback (stripped, lower-cased), else
nothing. -/
def deriveName (c : Candidate) : Option (List Char) :=
  match (firstText c.selText (List.range 10)).map (fun t => pyLower (pyStrip t)) with
  | some (ch :: rest) => some (ch :: rest)
  | _ => (firstAttr c.attrVal (List.range 4)).map (fun v => pyLower (pyStrip v))

/-- The extension filter of line 380. -/
def endsWithCwa (s : List Char) : Bool := List.isSuffixOf ".cwa".data s

/-- What the per-row events of the loop body are. -/
inductive PEv where
  | rowError
  | skipNoName
  | skipExt (n : List Char)
  | attempt (n : List Char)
  deriving DecidableEq

/-- The boolean attempt_download reports to the loop (its run never
faults, so the error arm is dead code). -/
def attemptResult (env : DriverEnv) : Bool :=
  match (runAttempt env).1 with
  | Except.ok b => b
  | Except.error _ => false

/-- The loop body of lines 332-395 for one row: an unexpected row fault is
caught and logged, a row without a derivable (truthy) name is skipped, a
name that does not end in .cwa is skipped, and only then is
attempt_download invoked; the first component is the contribution to
downloaded_count. -/
def processCandidate (c : Candidate) : Bool × List PEv :=
  if c.rowFault then (false, [PEv.rowError])
  else
    match deriveName c with
    | none => (false, [PEv.skipNoName])
    | some [] => (false, [PEv.skipNoName])
    | some (ch :: rest) =>
      if endsWithCwa (ch :: rest) then
        (attemptResult c.driverEnv, [PEv.attempt (ch :: rest)])
      else (false, [PEv.skipExt (ch :: rest)])

/-- The enumeration of rows with their indices, accumulating the download
counter and the per-row events. -/
def runRows : Nat → List Candidate → Nat × List (Nat × PEv)
  | _, [] => (0, [])
  | i, c :: rest =>
    let pc := processCandidate c
    let rr := runRows (i + 1) rest
    ((if pc.1 then 1 else 0) + rr.1, pc.2.map (fun e => (i, e)) ++ rr.2)

/-- The candidate loop of search_and_download: only the first five result
rows are enumerated (the slice of line 332). -/
def searchLoop (cands : List Candidate) : Nat × List (Nat × PEv) :=
  runRows 0 (cands.take 5)

/-! ## Concrete driver environments and candidates -/

/-- An environment in which every interaction succeeds and every
verification reports success. -/
def envAllTrue : DriverEnv :=
  ⟨fun _ => true, fun _ _ => true, fun _ _ => true, fun _ _ => true, fun _ _ => true,
   fun _ => true, fun _ => true, fun _ => true, fun _ => true, fun _ => true,
   fun _ => true, fun _ => true⟩

/-- An environment in which every interaction raises and every
verification reports failure. -/
def envAllFalse : DriverEnv :=
  ⟨fun _ => false, fun _ _ => false, fun _ _ => false, fun _ _ => false, fun _ _ => false,
   fun _ => false, fun _ => false, fun _ => false, fun _ => false, fun _ => false,
   fun _ => false, fun _ => false⟩

/-- An environment in which the detail view opens (double click succeeds)
but the download button of strategy B is never located, and no
context-menu selector resolves. -/
def envNoBtn : DriverEnv :=
  ⟨fun _ => true, fun _ _ => false, fun _ _ => false, fun _ _ => false, fun _ _ => false,
   fun _ => true, fun _ => false, fun _ => true, fun _ => true, fun _ => true,
   fun _ => true, fun _ => true⟩

/-- An environment in which the detail view opens and the download button
of strategy B is located, but both the direct click and the synthetic
fallback click on it raise. -/
def envNoClick : DriverEnv :=
  ⟨fun _ => true, fun _ _ => false, fun _ _ => false, fun _ _ => false, fun _ _ => false,
   fun _ => true, fun _ => true, fun _ => false, fun _ => false, fun _ => true,
   fun _ => true, fun _ => true⟩

/-- Whether an event is a back-navigation. -/
def isBack (e : Ev) : Bool :=
  match e with
  | Ev.back _ => true
  | _ => false

/-- A row whose first name selector reports the text notes.txt. -/
def candTxt : Candidate :=
  ⟨fun j => if j = 0 then some "notes.txt".data else none, fun _ => none, envAllFalse, false⟩

deriving instance DecidableEq for Except

/-! ## Basic facts about the string primitives -/

theorem charOfNat_toNat {n : Nat} (h : n < 55296) : (Char.ofNat n).toNat = n := by
  have hv : n.isValidChar := Or.inl h
  have h2 : n < 2 ^ 32 := by omega
  simp [Char.ofNat, hv, Char.ofNatAux, Char.toNat, UInt32.toNat, BitVec.toNat_ofNat,
    Nat.mod_eq_of_lt h2]

theorem pyToLower_toNat (c : Char) :
    (pyToLower c).toNat = if 65 ≤ c.toNat ∧ c.toNat ≤ 90 then c.toNat + 32 else c.toNat := by
  unfold pyToLower
  split
  · next h =>
    have : c.toNat + 32 < 55296 := by
      rcases h with ⟨_, h2⟩; omega
    simp [charOfNat_toNat this, h]
  · next h => simp [h]

theorem pyToLower_idem (c : Char) : pyToLower (pyToLower c) = pyToLower c := by
  unfold pyToLower
  split
  · next h =>
    have hlt : c.toNat + 32 < 55296 := by
      rcases h with ⟨_, h2⟩; omega
    have hc : ¬ (65 ≤ (Char.ofNat (c.toNat + 32)).toNat
        ∧ (Char.ofNat (c.toNat + 32)).toNat ≤ 90) := by
      rw [charOfNat_toNat hlt]; omega
    rw [if_neg hc]
  · rfl

theorem charToNat_injective : Function.Injective Char.toNat :=
  StrictMono.injective fun ⦃_ _⦄ a => a

theorem pyLower_idem (s : List Char) : pyLower (pyLower s) = pyLower s := by
  unfold pyLower
  rw [List.map_map]
  exact List.map_congr_left (fun c _ => pyToLower_idem c)

theorem pyToLower_eq_comma {c : Char} (h : pyToLower c = ',') : c = ',' := by
  have h1 := pyToLower_toNat c
  rw [h] at h1
  have hc : (',' : Char).toNat = 44 := by decide
  rw [hc] at h1
  split at h1
  · omega
  · exact charToNat_injective (by rw [hc]; omega)

/-- The stripped string is a sub-collection of the original: membership
is preserved downward. -/
theorem mem_pyStrip {c : Char} {s : List Char} (h : c ∈ pyStrip s) : c ∈ s := by
  unfold pyStrip at h
  have h1 : c ∈ List.dropWhile pyIsSpace s := by
    have hp := List.rdropWhile_prefix pyIsSpace (List.dropWhile pyIsSpace s)
    exact hp.subset h
  exact (List.dropWhile_sublist (l := s) pyIsSpace).subset h1

/-- Stripping is idempotent. -/
theorem pyStrip_idem (s : List Char) : pyStrip (pyStrip s) = pyStrip s := by
  unfold pyStrip
  set A := List.dropWhile pyIsSpace s with hA
  set B := List.rdropWhile pyIsSpace A with hB
  have hdropB : List.dropWhile pyIsSpace B = B := by
    rw [List.dropWhile_eq_self_iff]
    intro hl
    have hpre := List.rdropWhile_prefix pyIsSpace A
    rw [← hB] at hpre
    rcases hpre with ⟨t, ht⟩
    have hAself : List.dropWhile pyIsSpace A = A := by
      rw [hA]; exact List.dropWhile_idempotent _ _
    have hAhead := (List.dropWhile_eq_self_iff).mp hAself
    have hlen : 0 < A.length := by
      rw [← ht]; simp; omega
    have hBA : B.get ⟨0, hl⟩ = A.get ⟨0, hlen⟩ := by
      simp only [List.get_eq_getElem, ← ht]
      exact (List.getElem_append_left hl).symm
    rw [hBA]
    exact hAhead hlen
  rw [hdropB, hB]
  exact List.rdropWhile_idempotent _ _

/-- Replacing forbidden characters is idempotent character-wise. -/
theorem replaceForbidden_idem (s : List Char) :
    replaceForbidden (replaceForbidden s) = replaceForbidden s := by
  unfold replaceForbidden
  rw [List.map_map]
  refine List.map_congr_left (fun c _ => ?_)
  by_cases h : c ∈ forbiddenChars
  · simp only [Function.comp, h, if_pos]
    have : ('_' : Char) ∉ forbiddenChars := by decide
    simp [this]
  · simp [Function.comp, h]

/-- The replacement map fixes any list whose members avoid the forbidden
class. -/
theorem replaceForbidden_eq_self {s : List Char}
    (h : ∀ c ∈ s, c ∉ forbiddenChars) : replaceForbidden s = s := by
  unfold replaceForbidden
  conv_rhs => rw [← List.map_id s]
  exact List.map_congr_left (fun c hc => by simp [h c hc])

/-- Members of the replaced string are underscores or non-forbidden
original characters; in particular none is forbidden. -/
theorem mem_replaceForbidden_not_forbidden {c : Char} {s : List Char}
    (h : c ∈ replaceForbidden s) : c ∉ forbiddenChars := by
  unfold replaceForbidden at h
  rcases List.mem_map.mp h with ⟨d, _, hd⟩
  by_cases hf : d ∈ forbiddenChars
  · rw [if_pos hf] at hd
    rw [← hd]; decide
  · rw [if_neg hf] at hd
    rw [← hd]; exact hf

/-- The replacement map never yields whitespace from non-whitespace nor
vice versa, so it commutes with stripping. -/
theorem pyIsSpace_replace (c : Char) :
    pyIsSpace (if c ∈ forbiddenChars then '_' else c) = pyIsSpace c := by
  by_cases h : c ∈ forbiddenChars
  · rw [if_pos h]
    have h2 : pyIsSpace c = false := by
      fin_cases h <;> decide
    rw [h2]; decide
  · rw [if_neg h]

theorem pyStrip_replaceForbidden_comm (s : List Char) :
    pyStrip (replaceForbidden s) = replaceForbidden (pyStrip s) := by
  have hfun : (pyIsSpace ∘ fun c => if c ∈ forbiddenChars then '_' else c) = pyIsSpace :=
    funext pyIsSpace_replace
  have hmap : ∀ t : List Char,
      List.dropWhile pyIsSpace (replaceForbidden t)
        = replaceForbidden (List.dropWhile pyIsSpace t) := by
    intro t
    unfold replaceForbidden
    rw [List.dropWhile_map, hfun]
  have hrev : ∀ t : List Char,
      (replaceForbidden t).reverse = replaceForbidden t.reverse := by
    intro t; unfold replaceForbidden; rw [List.map_reverse]
  unfold pyStrip
  rw [hmap, List.rdropWhile, List.rdropWhile, hrev, hmap, hrev]

/-! ## Claim C1: the sanitizer mapping -/

theorem pyLower_legacyRawName : pyLower legacyRawName = legacyLower := by decide

/-- C1. A non-empty input that equals the hard-coded legacy name under
case-insensitive comparison maps exactly to the fixed target string; every
other non-empty input has each forbidden character replaced by an
underscore and leading and trailing whitespace removed (in either order of
those two operations, which commute). -/
theorem C1_sanitize_mapping (s : List Char) (hne : s ≠ []) :
    (pyLower s = pyLower legacyRawName → sanitize_filename s = some legacyTarget) ∧
    (pyLower s ≠ pyLower legacyRawName →
      sanitize_filename s = some (pyStrip (replaceForbidden s)) ∧
      sanitize_filename s = some (replaceForbidden (pyStrip s))) := by
  rw [pyLower_legacyRawName]
  unfold sanitize_filename
  rw [if_neg hne]
  constructor
  · intro h
    rw [if_pos h]
  · intro h
    rw [if_neg h]
    exact ⟨rfl, by rw [pyStrip_replaceForbidden_comm]⟩

theorem C1_sanitize_mapping_witness :
    sanitize_filename "a,b".data = some "a_b".data
      ∧ sanitize_filename " Ab*cd.cwa ".data = some "Ab_cd.cwa".data := by
  constructor
  · have h := ((C1_sanitize_mapping "a,b".data (by decide)).2 (by decide)).1
    rw [h]; decide
  · have h := ((C1_sanitize_mapping " Ab*cd.cwa ".data (by decide)).2 (by decide)).1
    rw [h]; decide

/-! ## Claim C6: idempotence of the sanitizer -/

/-- C6 counterexample. The sanitizer is not idempotent: on the one-space
input it yields the empty string, but sanitizing the empty string yields
None (the falsy guard fires), not the empty string again. -/
theorem C6_counterexample :
    sanitize_filename [' '] = some []
      ∧ sanitize_filename [] = none
      ∧ ¬ (∀ s t : List Char, sanitize_filename s = some t → sanitize_filename t = some t) := by
  refine ⟨by decide, by decide, fun h => ?_⟩
  have h2 := h [' '] [] (by decide)
  rw [show sanitize_filename [] = none from by decide] at h2
  exact Option.noConfusion h2

/-- C6 amended. The sanitizer is idempotent on every input whose sanitized
output is non-empty: sanitizing such an output again returns it unchanged
(whitespace-only inputs sanitize to the empty string, which the falsy
guard then maps to None rather than to itself). -/
theorem C6_amended_idempotent (s t : List Char)
    (h : sanitize_filename s = some t) (hne : t ≠ []) :
    sanitize_filename t = some t := by
  unfold sanitize_filename at h
  by_cases hs : s = []
  · rw [if_pos hs] at h; exact Option.noConfusion h
  rw [if_neg hs] at h
  by_cases hleg : pyLower s = legacyLower
  · rw [if_pos hleg] at h
    have ht : t = legacyTarget := (Option.some.inj h).symm
    subst ht
    decide
  · rw [if_neg hleg] at h
    have ht : t = pyStrip (replaceForbidden s) := (Option.some.inj h).symm
    have hleg2 : pyLower t ≠ legacyLower := by
      intro heq
      have hcm : (',' : Char) ∈ legacyLower := by decide
      rw [← heq] at hcm
      rcases List.mem_map.mp hcm with ⟨c, hct, hcl⟩
      have hc : c = ',' := pyToLower_eq_comma hcl
      subst hc
      rw [ht] at hct
      have h2 : (',' : Char) ∈ replaceForbidden s := mem_pyStrip hct
      have h3 := mem_replaceForbidden_not_forbidden h2
      exact h3 (by decide)
    unfold sanitize_filename
    rw [if_neg hne, if_neg hleg2, ht]
    rw [← pyStrip_replaceForbidden_comm (replaceForbidden s)]
    rw [pyStrip_idem, replaceForbidden_idem]

theorem C6_amended_idempotent_witness :
    sanitize_filename "a_b".data = some "a_b".data :=
  C6_amended_idempotent "a,b".data "a_b".data (by decide) (by decide)

theorem firstResolve_first_hit {α : Type} (resolve : List Char → Option α) :
    ∀ (sels : List (List Char)) (k : Nat) (sk : List Char) (e : α),
      sels[k]? = some sk → resolve sk = some e →
      (∀ j s, j < k → sels[j]? = some s → resolve s = none) →
      firstResolve resolve sels = some e := by
  intro sels
  induction sels with
  | nil => intro k sk e hk; simp at hk
  | cons hd tl ih =>
    intro k sk e hk hre hbefore
    cases k with
    | zero =>
      simp at hk
      subst hk
      unfold firstResolve
      rw [hre]
    | succ k =>
      have h0 : resolve hd = none := hbefore 0 hd (Nat.succ_pos k) (by simp)
      unfold firstResolve
      rw [h0]
      exact ih k sk e (by simpa using hk) hre
        (fun j s hj hs => hbefore (j + 1) s (by omega) (by simpa using hs))

theorem firstResolve_all_none {α : Type} (resolve : List Char → Option α)
    (sels : List (List Char)) (h : ∀ s ∈ sels, resolve s = none) :
    firstResolve resolve sels = none := by
  induction sels with
  | nil => rfl
  | cons hd tl ih =>
    unfold firstResolve
    rw [h hd (List.mem_cons_self hd tl)]
    exact ih (fun s hs => h s (List.mem_cons_of_mem hd hs))

/-- C4. If the k-th selector strategy is the first that resolves, the
locator returns exactly its element; the result is moreover independent of
the oracle beyond position k, so no later strategy is consulted; and when
no strategy resolves the locator reports not-found after the single pass. -/
theorem C4_locator_first_strategy (sels : List (List Char))
    (resolve : List Char → Option Nat) (k : Nat) (sk : List Char) (e : Nat)
    (hk : sels[k]? = some sk) (hre : resolve sk = some e)
    (hbefore : ∀ j s, j < k → sels[j]? = some s → resolve s = none) :
    firstResolve resolve sels = some e ∧
    (∀ resolve2 : List Char → Option Nat,
      (∀ j s, j ≤ k → sels[j]? = some s → resolve2 s = resolve s) →
      firstResolve resolve2 sels = some e) ∧
    (∀ resolve3 : List Char → Option Nat,
      (∀ s ∈ searchSelectors, resolve3 s = none) →
      get_search_input resolve3 = none) := by
  refine ⟨firstResolve_first_hit resolve sels k sk e hk hre hbefore, ?_, ?_⟩
  · intro resolve2 hagree
    refine firstResolve_first_hit resolve2 sels k sk e hk ?_ ?_
    · rw [hagree k sk (Nat.le_refl k) hk, hre]
    · intro j s hj hs
      rw [hagree j s (Nat.le_of_lt hj) hs]
      exact hbefore j s hj hs
  · intro resolve3 h3
    exact firstResolve_all_none resolve3 searchSelectors h3

theorem C4_locator_first_strategy_witness :
    firstResolve
        (fun s => if s = "input[placeholder*=\x27Search\x27]".data then some 7 else none)
        searchSelectors = some 7
      ∧ get_search_input (fun _ => none) = none := by
  have h := C4_locator_first_strategy searchSelectors
    (fun s => if s = "input[placeholder*=\x27Search\x27]".data then some 7 else none)
    1 "input[placeholder*=\x27Search\x27]".data 7
    (by decide) (by decide)
    (by
      intro j s hj hs
      interval_cases j
      simp [searchSelectors] at hs
      subst hs
      decide)
  exact ⟨h.1, h.2.2 (fun _ => none) (fun s _ => rfl)⟩

theorem verifyLoop_hit (present : Nat → Bool) :
    ∀ (fuel start t0 : Nat), start ≤ t0 → t0 < start + fuel →
      present t0 = true → (∀ u, start ≤ u → u < t0 → present u = false) →
      verifyLoop present start fuel = (true, t0) := by
  intro fuel
  induction fuel with
  | zero => intro start t0 h1 h2; omega
  | succ fuel ih =>
    intro start t0 h1 h2 hp hbefore
    unfold verifyLoop
    by_cases hs : start = t0
    · subst hs; simp [hp]
    · have hlt : start < t0 := by omega
      rw [hbefore start (Nat.le_refl start) hlt]
      simp only [Bool.false_eq_true, if_false]
      exact ih (start + 1) t0 (by omega) (by omega) hp
        (fun u hu1 hu2 => hbefore u (by omega) hu2)

theorem verifyLoop_miss (present : Nat → Bool) :
    ∀ (fuel start : Nat), (∀ u, start ≤ u → u < start + fuel → present u = false) →
      verifyLoop present start fuel = (false, start + fuel) := by
  intro fuel
  induction fuel with
  | zero => intro start h; rfl
  | succ fuel ih =>
    intro start h
    unfold verifyLoop
    rw [h start (Nat.le_refl start) (by omega)]
    simp only [Bool.false_eq_true, if_false]
    rw [ih (start + 1) (fun u hu1 hu2 => h u (by omega) (by omega))]
    congr 1
    omega

/-- C5. For a (non-empty, so not falsy-guarded) sanitized file name,
verification polling succeeds exactly at the first second at which the
expected file exists, provided that second falls inside the timeout
window, stopping the loop there instead of waiting out the timeout; when
the file never appears within the window it fails after the full bounded
timeout; and a name whose sanitization is empty (whitespace-only input)
verifies as False at once by the falsy guard, without polling. -/
theorem C5_verify_polling (filename name : List Char) (fs : List Char → Nat → Bool)
    (timeout t0 : Nat) (hs : sanitize_filename filename = some name)
    (hne : name ≠ []) :
    (t0 < timeout → fs name t0 = true → (∀ u, u < t0 → fs name u = false) →
      verify_download filename fs timeout = true
        ∧ verifyLoop (fs name) 0 timeout = (true, t0)) ∧
    ((∀ u, u < timeout → fs name u = false) →
      verify_download filename fs timeout = false
        ∧ verifyLoop (fs name) 0 timeout = (false, timeout)) ∧
    (∀ (filename2 : List Char) (fs2 : List Char → Nat → Bool) (timeout2 : Nat),
      sanitize_filename filename2 = some [] →
      verify_download filename2 fs2 timeout2 = false) := by
  rcases hname : name with _ | ⟨ch, rest⟩
  · exact absurd hname hne
  subst hname
  refine ⟨?_, ?_, ?_⟩
  · intro hlt hp hbefore
    have hloop := verifyLoop_hit (fs (ch :: rest)) timeout 0 t0 (Nat.zero_le t0)
      (by omega) hp (fun u _ hu => hbefore u hu)
    refine ⟨?_, hloop⟩
    simp [verify_download, hs, hloop]
  · intro hnever
    have hloop := verifyLoop_miss (fs (ch :: rest)) timeout 0
      (fun u _ hu => hnever u (by omega))
    refine ⟨?_, by simpa using hloop⟩
    simp [verify_download, hs, hloop]
  · intro filename2 fs2 timeout2 hs2
    simp [verify_download, hs2]

theorem C5_verify_polling_witness :
    verify_download "x.cwa".data (fun _ t => t == 2) 30 = true
      ∧ verifyLoop (fun t => t == 2) 0 30 = (true, 2)
      ∧ verify_download "x.cwa".data (fun _ _ => false) 30 = false
      ∧ verify_download " ".data (fun _ _ => true) 30 = false := by
  have h1 := (C5_verify_polling "x.cwa".data "x.cwa".data (fun _ t => t == 2) 30 2
    (by decide) (by decide)).1 (by omega) (by decide) (by decide)
  have h2 := (C5_verify_polling "x.cwa".data "x.cwa".data (fun _ _ => false) 30 0
    (by decide) (by decide)).2.1 (fun u _ => rfl)
  have h3 := (C5_verify_polling "x.cwa".data "x.cwa".data (fun _ _ => false) 30 0
    (by decide) (by decide)).2.2 " ".data (fun _ _ => true) 30 (by decide)
  exact ⟨h1.1, h1.2, h2.1, h3⟩

/-- C9. The code contradicts the claimed always-cleanup behaviour: the
cleanup function is written as a method (self parameter, docstring) but is
dedented to module level, so the attribute lookup in the finally block of
the main program raises AttributeError and driver.quit() is never reached
on any exit of the run. -/
theorem C9_cleanup_bug :
    instanceHasAttr "cleanup" = false
      ∧ "cleanup" ∈ moduleLevelFunctions
      ∧ finallyTeardown = Except.error "AttributeError: cleanup" :=
  ⟨by decide, by decide, rfl⟩

/-! ## Run equations for the embedding monad -/

theorem runM_pure {α : Type} (a : α) (s : List Ev) :
    runM (pure a : M α) s = (Except.ok a, s) := rfl

theorem runM_emit (ev : Ev) (s : List Ev) :
    runM (emit ev) s = (Except.ok (), s ++ [ev]) := rfl

theorem runM_prim (ok : Bool) (ev : Ev) (s : List Ev) :
    runM (prim ok ev) s =
      (if ok then Except.ok () else Except.error Fault.driverFault, s ++ [ev]) := rfl

theorem runM_bind_ok {α β : Type} {x : M α} {f : α → M β} {s s1 : List Ev} {a : α}
    (h : runM x s = (Except.ok a, s1)) : runM (x >>= f) s = runM (f a) s1 := by
  show runM (ExceptT.bind x f) s = _
  unfold runM at h ⊢
  simp only [ExceptT.bind, ExceptT.mk, ExceptT.run] at *
  show (x.run >>= fun r => ExceptT.bindCont f r) s = _
  simp only [Bind.bind, StateT.bind, Id.bind_eq] at *
  rw [show x.run s = (Except.ok a, s1) from h]
  rfl

theorem runM_bind_error {α β : Type} {x : M α} {f : α → M β} {s s1 : List Ev} {e : Fault}
    (h : runM x s = (Except.error e, s1)) : runM (x >>= f) s = (Except.error e, s1) := by
  show runM (ExceptT.bind x f) s = _
  unfold runM at h ⊢
  show (x.run >>= fun r => ExceptT.bindCont f r) s = _
  simp only [Bind.bind, StateT.bind, Id.bind_eq] at *
  rw [show x.run s = (Except.error e, s1) from h]
  rfl

theorem runM_pyTry_ok {α : Type} {x h : M α} {s s1 : List Ev} {a : α}
    (hx : runM x s = (Except.ok a, s1)) : runM (pyTry x h) s = (Except.ok a, s1) := by
  unfold runM at hx ⊢
  unfold pyTry
  show (match x.run s with
    | (Except.ok a, s1) => (Except.ok a, s1)
    | (Except.error _, s1) => h.run s1) = _
  rw [show x.run s = (Except.ok a, s1) from hx]

theorem runM_pyTry_error {α : Type} {x h : M α} {s s1 : List Ev} {e : Fault}
    (hx : runM x s = (Except.error e, s1)) : runM (pyTry x h) s = runM h s1 := by
  unfold runM at hx ⊢
  unfold pyTry
  show (match x.run s with
    | (Except.ok a, s1) => (Except.ok a, s1)
    | (Except.error _, s1) => h.run s1) = _
  rw [show x.run s = (Except.error e, s1) from hx]

theorem mtotal_pure {α : Type} (a : α) : MTotal (pure a : M α) :=
  fun s => ⟨a, s, rfl⟩

theorem mtotal_emit (ev : Ev) : MTotal (emit ev) :=
  fun s => ⟨(), s ++ [ev], rfl⟩

theorem mtotal_bind {α β : Type} {x : M α} {f : α → M β}
    (hx : MTotal x) (hf : ∀ a, MTotal (f a)) : MTotal (x >>= f) := by
  intro s
  rcases hx s with ⟨a, s1, h1⟩
  rcases hf a s1 with ⟨b, s2, h2⟩
  exact ⟨b, s2, by rw [runM_bind_ok h1, h2]⟩

theorem mtotal_pyTry {α : Type} {x h : M α} (hh : MTotal h) : MTotal (pyTry x h) := by
  intro s
  rcases hx : runM x s with ⟨r, s1⟩
  cases r with
  | ok a => exact ⟨a, s1, runM_pyTry_ok hx⟩
  | error e =>
    rcases hh s1 with ⟨a, s2, h2⟩
    exact ⟨a, s2, by rw [runM_pyTry_error hx, h2]⟩

theorem mtotal_ite {α : Type} (c : Prop) [Decidable c] {x y : M α}
    (hx : MTotal x) (hy : MTotal y) : MTotal (if c then x else y) := by
  by_cases h : c
  · rw [if_pos h]; exact hx
  · rw [if_neg h]; exact hy

theorem mtotal_stratASel (env : DriverEnv) (a i : Nat) : MTotal (stratASel env a i) :=
  mtotal_pyTry (mtotal_pure false)

theorem mtotal_firstTrueM {l : List (M Bool)} (h : ∀ x ∈ l, MTotal x) :
    MTotal (firstTrueM l) := by
  induction l with
  | nil => exact mtotal_pure false
  | cons hd tl ih =>
    unfold firstTrueM
    refine mtotal_bind (h hd (List.mem_cons_self hd tl)) (fun r => ?_)
    refine mtotal_ite _ (mtotal_pure true) (ih (fun x hx => h x (List.mem_cons_of_mem hd hx)))

theorem mtotal_strategyA (env : DriverEnv) (a : Nat) : MTotal (strategyA env a) := by
  refine mtotal_firstTrueM (fun x hx => ?_)
  rcases List.mem_map.mp hx with ⟨i, _, hi⟩
  rw [← hi]
  exact mtotal_stratASel env a i

theorem mtotal_strategyB (env : DriverEnv) (a : Nat) : MTotal (strategyB env a) :=
  mtotal_pyTry (mtotal_bind (mtotal_emit _) (fun _ => mtotal_pure false))

theorem mtotal_attemptOnce (env : DriverEnv) (a : Nat) : MTotal (attemptOnce env a) := by
  refine mtotal_bind (mtotal_emit _) (fun _ => ?_)
  refine mtotal_bind (mtotal_pyTry (mtotal_bind (mtotal_emit _) (fun _ => mtotal_pure false)))
    (fun r => ?_)
  refine mtotal_ite _ (mtotal_pure true) ?_
  exact mtotal_bind (mtotal_pyTry (mtotal_pure ())) (fun _ => mtotal_pure false)

theorem mtotal_attempt_download (env : DriverEnv) : MTotal (attempt_download env) := by
  refine mtotal_bind (mtotal_attemptOnce env 1) (fun r1 => ?_)
  refine mtotal_ite _ (mtotal_pure true) ?_
  refine mtotal_bind (mtotal_emit _) (fun _ => ?_)
  refine mtotal_bind (mtotal_attemptOnce env 2) (fun r2 => ?_)
  exact mtotal_ite _ (mtotal_pure true) (mtotal_pure false)

theorem nostarts_pure {α : Type} (a : α) : NoStarts (pure a : M α) := fun _ => rfl

theorem nostarts_emit {ev : Ev} (h : isStart ev = false) : NoStarts (emit ev) := by
  intro s
  rw [runM_emit]
  simp [countStarts, List.countP_append, List.countP_cons, h]

theorem nostarts_prim {ok : Bool} {ev : Ev} (h : isStart ev = false) :
    NoStarts (prim ok ev) := by
  intro s
  rw [runM_prim]
  simp [countStarts, List.countP_append, List.countP_cons, h]

theorem nostarts_bind {α β : Type} {x : M α} {f : α → M β}
    (hx : NoStarts x) (hf : ∀ a, NoStarts (f a)) : NoStarts (x >>= f) := by
  intro s
  rcases h1 : runM x s with ⟨r, s1⟩
  have hxs : countStarts s1 = countStarts s := by
    have := hx s; rw [h1] at this; exact this
  cases r with
  | ok a =>
    rw [runM_bind_ok h1]
    rw [hf a s1, hxs]
  | error e =>
    rw [runM_bind_error h1]
    exact hxs

theorem nostarts_pyTry {α : Type} {x h : M α} (hx : NoStarts x) (hh : NoStarts h) :
    NoStarts (pyTry x h) := by
  intro s
  rcases h1 : runM x s with ⟨r, s1⟩
  have hxs : countStarts s1 = countStarts s := by
    have := hx s; rw [h1] at this; exact this
  cases r with
  | ok a => rw [runM_pyTry_ok h1]; exact hxs
  | error e =>
    rw [runM_pyTry_error h1]
    rw [hh s1, hxs]

theorem nostarts_ite {α : Type} (c : Prop) [Decidable c] {x y : M α}
    (hx : NoStarts x) (hy : NoStarts y) : NoStarts (if c then x else y) := by
  by_cases h : c
  · rw [if_pos h]; exact hx
  · rw [if_neg h]; exact hy

theorem nostarts_clickWithFallback (d j : Bool) (evD evJ : Ev)
    (hd : isStart evD = false) (hj : isStart evJ = false) :
    NoStarts (clickWithFallback d j evD evJ) :=
  nostarts_pyTry (nostarts_prim hd) (nostarts_prim hj)

theorem nostarts_stratASel (env : DriverEnv) (a i : Nat) : NoStarts (stratASel env a i) := by
  refine nostarts_pyTry ?_ (nostarts_pure false)
  refine nostarts_bind (nostarts_prim rfl) (fun _ => ?_)
  refine nostarts_bind (nostarts_clickWithFallback _ _ _ _ rfl rfl) (fun _ => ?_)
  exact nostarts_bind (nostarts_emit rfl) (fun _ => nostarts_pure _)

theorem nostarts_firstTrueM {l : List (M Bool)} (h : ∀ x ∈ l, NoStarts x) :
    NoStarts (firstTrueM l) := by
  induction l with
  | nil => exact nostarts_pure false
  | cons hd tl ih =>
    unfold firstTrueM
    refine nostarts_bind (h hd (List.mem_cons_self hd tl)) (fun r => ?_)
    exact nostarts_ite _ (nostarts_pure true)
      (ih (fun x hx => h x (List.mem_cons_of_mem hd hx)))

theorem nostarts_strategyA (env : DriverEnv) (a : Nat) : NoStarts (strategyA env a) := by
  refine nostarts_firstTrueM (fun x hx => ?_)
  rcases List.mem_map.mp hx with ⟨i, _, hi⟩
  rw [← hi]
  exact nostarts_stratASel env a i

theorem nostarts_strategyB (env : DriverEnv) (a : Nat) : NoStarts (strategyB env a) := by
  refine nostarts_pyTry ?_ (nostarts_bind (nostarts_emit rfl) (fun _ => nostarts_pure false))
  refine nostarts_bind (nostarts_prim rfl) (fun _ => ?_)
  refine nostarts_bind (nostarts_prim rfl) (fun _ => ?_)
  refine nostarts_bind (nostarts_clickWithFallback _ _ _ _ rfl rfl) (fun _ => ?_)
  refine nostarts_bind (nostarts_emit rfl) (fun _ => ?_)
  refine nostarts_ite _ ?_ ?_
  · exact nostarts_bind (nostarts_prim rfl) (fun _ => nostarts_pure true)
  · exact nostarts_bind (nostarts_prim rfl) (fun _ => nostarts_pure false)

theorem nostarts_attemptBody (env : DriverEnv) (a : Nat) : NoStarts (attemptBody env a) := by
  refine nostarts_bind (nostarts_prim rfl) (fun _ => ?_)
  refine nostarts_bind (nostarts_strategyA env a) (fun ra => ?_)
  exact nostarts_ite _ (nostarts_pure true) (nostarts_strategyB env a)

/-- Each iteration of the retry loop records exactly one start event. -/
theorem attemptOnce_starts (env : DriverEnv) (a : Nat) (s : List Ev) :
    countStarts (runM (attemptOnce env a) s).2 = countStarts s + 1 := by
  unfold attemptOnce
  rw [runM_bind_ok (runM_emit (Ev.attemptStart a) s)]
  have hrest : NoStarts (pyTry (attemptBody env a)
      (emit (Ev.warnAttempt a) >>= fun _ => pure false) >>= fun r =>
      if r then pure true
      else pyTry (prim (env.bodyClickOk a) (Ev.bodyClick a)) (pure ()) >>= fun _ => pure false) := by
    refine nostarts_bind (nostarts_pyTry (nostarts_attemptBody env a)
      (nostarts_bind (nostarts_emit rfl) (fun _ => nostarts_pure false))) (fun r => ?_)
    refine nostarts_ite _ (nostarts_pure true) ?_
    exact nostarts_bind (nostarts_pyTry (nostarts_prim rfl) (nostarts_pure ()))
      (fun _ => nostarts_pure false)
  rw [hrest (s ++ [Ev.attemptStart a])]
  simp [countStarts, List.countP_append, List.countP_cons, isStart]

/-! ## Evaluation of the click fallback and of strategy B -/

theorem runM_clickWithFallback (d j : Bool) (evD evJ : Ev) (s : List Ev) :
    runM (clickWithFallback d j evD evJ) s =
      (if d || j then Except.ok () else Except.error Fault.driverFault,
       if d then s ++ [evD] else s ++ [evD, evJ]) := by
  cases d with
  | true =>
    unfold clickWithFallback
    rw [runM_pyTry_ok (show runM (prim true evD) s = (Except.ok (), s ++ [evD]) from
      by rw [runM_prim]; rfl)]
    simp
  | false =>
    unfold clickWithFallback
    rw [runM_pyTry_error (show runM (prim false evD) s
        = (Except.error Fault.driverFault, s ++ [evD]) from by rw [runM_prim]; rfl)]
    rw [runM_prim]
    cases j <;> simp

theorem runM_stratBBody (env : DriverEnv) (a : Nat) (s : List Ev) :
    runM (stratBBody env a) s =
      if env.doubleClickOk a = false then
        (Except.error Fault.driverFault, s ++ [Ev.doubleClick a])
      else if env.findBtnOk a = false then
        (Except.error Fault.driverFault, s ++ [Ev.doubleClick a, Ev.findBtn a])
      else if env.clickBtnOk a = false ∧ env.jsClickBtnOk a = false then
        (Except.error Fault.driverFault,
         s ++ [Ev.doubleClick a, Ev.findBtn a, Ev.clickBtn a, Ev.jsClickBtn a])
      else
        (if env.backOk a then Except.ok (env.verifyBtnOk a)
         else Except.error Fault.driverFault,
         s ++ [Ev.doubleClick a, Ev.findBtn a]
           ++ (if env.clickBtnOk a then [Ev.clickBtn a] else [Ev.clickBtn a, Ev.jsClickBtn a])
           ++ [Ev.verifyBtn a (env.verifyBtnOk a), Ev.back a]) := by
  unfold stratBBody
  cases hd2 : env.doubleClickOk a with
  | false =>
    rw [runM_bind_error (show runM (prim false (Ev.doubleClick a)) s
      = (Except.error Fault.driverFault, s ++ [Ev.doubleClick a]) from by rw [runM_prim]; rfl)]
    simp
  | true =>
    rw [runM_bind_ok (show runM (prim true (Ev.doubleClick a)) s
      = (Except.ok (), s ++ [Ev.doubleClick a]) from by rw [runM_prim]; rfl)]
    cases hf2 : env.findBtnOk a with
    | false =>
      rw [runM_bind_error (show runM (prim false (Ev.findBtn a)) (s ++ [Ev.doubleClick a])
        = (Except.error Fault.driverFault, s ++ [Ev.doubleClick a, Ev.findBtn a]) from
        by rw [runM_prim]; simp)]
      simp
    | true =>
      rw [runM_bind_ok (show runM (prim true (Ev.findBtn a)) (s ++ [Ev.doubleClick a])
        = (Except.ok (), s ++ [Ev.doubleClick a, Ev.findBtn a]) from
        by rw [runM_prim]; simp)]
      cases hc2 : env.clickBtnOk a with
      | false =>
        cases hj2 : env.jsClickBtnOk a with
        | false =>
          rw [runM_bind_error (show runM (clickWithFallback false false
              (Ev.clickBtn a) (Ev.jsClickBtn a)) (s ++ [Ev.doubleClick a, Ev.findBtn a])
            = (Except.error Fault.driverFault,
               s ++ [Ev.doubleClick a, Ev.findBtn a, Ev.clickBtn a, Ev.jsClickBtn a]) from
            by rw [runM_clickWithFallback]; simp)]
          simp
        | true =>
          rw [runM_bind_ok (show runM (clickWithFallback false true
              (Ev.clickBtn a) (Ev.jsClickBtn a)) (s ++ [Ev.doubleClick a, Ev.findBtn a])
            = (Except.ok (),
               s ++ [Ev.doubleClick a, Ev.findBtn a, Ev.clickBtn a, Ev.jsClickBtn a]) from
            by rw [runM_clickWithFallback]; simp)]
          rw [runM_bind_ok (runM_emit (Ev.verifyBtn a (env.verifyBtnOk a)) _)]
          cases hv2 : env.verifyBtnOk a with
          | false =>
            simp only [Bool.false_eq_true, if_false]
            cases hb2 : env.backOk a with
            | false =>
              rw [runM_bind_error (show runM (prim false (Ev.back a)) (s ++ [Ev.doubleClick a, Ev.findBtn a, Ev.clickBtn a, Ev.jsClickBtn a] ++ [Ev.verifyBtn a false])
                = (Except.error Fault.driverFault, s ++ [Ev.doubleClick a, Ev.findBtn a, Ev.clickBtn a, Ev.jsClickBtn a] ++ [Ev.verifyBtn a false] ++ [Ev.back a]) from by rw [runM_prim]; simp)]
              simp
            | true =>
              rw [runM_bind_ok (show runM (prim true (Ev.back a)) (s ++ [Ev.doubleClick a, Ev.findBtn a, Ev.clickBtn a, Ev.jsClickBtn a] ++ [Ev.verifyBtn a false])
                = (Except.ok (), s ++ [Ev.doubleClick a, Ev.findBtn a, Ev.clickBtn a, Ev.jsClickBtn a] ++ [Ev.verifyBtn a false] ++ [Ev.back a]) from by rw [runM_prim]; simp)]
              rw [runM_pure]
              simp
          | true =>
            simp only [if_true]
            cases hb2 : env.backOk a with
            | false =>
              rw [runM_bind_error (show runM (prim false (Ev.back a)) (s ++ [Ev.doubleClick a, Ev.findBtn a, Ev.clickBtn a, Ev.jsClickBtn a] ++ [Ev.verifyBtn a true])
                = (Except.error Fault.driverFault, s ++ [Ev.doubleClick a, Ev.findBtn a, Ev.clickBtn a, Ev.jsClickBtn a] ++ [Ev.verifyBtn a true] ++ [Ev.back a]) from by rw [runM_prim]; simp)]
              simp
            | true =>
              rw [runM_bind_ok (show runM (prim true (Ev.back a)) (s ++ [Ev.doubleClick a, Ev.findBtn a, Ev.clickBtn a, Ev.jsClickBtn a] ++ [Ev.verifyBtn a true])
                = (Except.ok (), s ++ [Ev.doubleClick a, Ev.findBtn a, Ev.clickBtn a, Ev.jsClickBtn a] ++ [Ev.verifyBtn a true] ++ [Ev.back a]) from by rw [runM_prim]; simp)]
              rw [runM_pure]
              simp
      | true =>
        rw [runM_bind_ok (show runM (clickWithFallback true (env.jsClickBtnOk a)
            (Ev.clickBtn a) (Ev.jsClickBtn a)) (s ++ [Ev.doubleClick a, Ev.findBtn a])
          = (Except.ok (), s ++ [Ev.doubleClick a, Ev.findBtn a, Ev.clickBtn a]) from
          by rw [runM_clickWithFallback]; simp)]
        rw [runM_bind_ok (runM_emit (Ev.verifyBtn a (env.verifyBtnOk a)) _)]
        cases hv2 : env.verifyBtnOk a with
        | false =>
          simp only [Bool.false_eq_true, if_false]
          cases hb2 : env.backOk a with
          | false =>
            rw [runM_bind_error (show runM (prim false (Ev.back a)) (s ++ [Ev.doubleClick a, Ev.findBtn a, Ev.clickBtn a] ++ [Ev.verifyBtn a false])
              = (Except.error Fault.driverFault, s ++ [Ev.doubleClick a, Ev.findBtn a, Ev.clickBtn a] ++ [Ev.verifyBtn a false] ++ [Ev.back a]) from by rw [runM_prim]; simp)]
            simp
          | true =>
            rw [runM_bind_ok (show runM (prim true (Ev.back a)) (s ++ [Ev.doubleClick a, Ev.findBtn a, Ev.clickBtn a] ++ [Ev.verifyBtn a false])
              = (Except.ok (), s ++ [Ev.doubleClick a, Ev.findBtn a, Ev.clickBtn a] ++ [Ev.verifyBtn a false] ++ [Ev.back a]) from by rw [runM_prim]; simp)]
            rw [runM_pure]
            simp
        | true =>
          simp only [if_true]
          cases hb2 : env.backOk a with
          | false =>
            rw [runM_bind_error (show runM (prim false (Ev.back a)) (s ++ [Ev.doubleClick a, Ev.findBtn a, Ev.clickBtn a] ++ [Ev.verifyBtn a true])
              = (Except.error Fault.driverFault, s ++ [Ev.doubleClick a, Ev.findBtn a, Ev.clickBtn a] ++ [Ev.verifyBtn a true] ++ [Ev.back a]) from by rw [runM_prim]; simp)]
            simp
          | true =>
            rw [runM_bind_ok (show runM (prim true (Ev.back a)) (s ++ [Ev.doubleClick a, Ev.findBtn a, Ev.clickBtn a] ++ [Ev.verifyBtn a true])
              = (Except.ok (), s ++ [Ev.doubleClick a, Ev.findBtn a, Ev.clickBtn a] ++ [Ev.verifyBtn a true] ++ [Ev.back a]) from by rw [runM_prim]; simp)]
            rw [runM_pure]
            simp

theorem runM_handlerWarn (a : Nat) (s : List Ev) :
    runM (emit (Ev.warnFileView a) >>= fun _ => pure false : M Bool) s
      = (Except.ok false, s ++ [Ev.warnFileView a]) := by
  rw [runM_bind_ok (runM_emit (Ev.warnFileView a) s), runM_pure]

theorem runM_strategyB (env : DriverEnv) (a : Nat) (s : List Ev) :
    runM (strategyB env a) s =
      if env.doubleClickOk a = false then
        (Except.ok false, s ++ [Ev.doubleClick a] ++ [Ev.warnFileView a])
      else if env.findBtnOk a = false then
        (Except.ok false, s ++ [Ev.doubleClick a, Ev.findBtn a] ++ [Ev.warnFileView a])
      else if env.clickBtnOk a = false ∧ env.jsClickBtnOk a = false then
        (Except.ok false,
         s ++ [Ev.doubleClick a, Ev.findBtn a, Ev.clickBtn a, Ev.jsClickBtn a]
           ++ [Ev.warnFileView a])
      else if env.backOk a then
        (Except.ok (env.verifyBtnOk a),
         s ++ [Ev.doubleClick a, Ev.findBtn a]
           ++ (if env.clickBtnOk a then [Ev.clickBtn a] else [Ev.clickBtn a, Ev.jsClickBtn a])
           ++ [Ev.verifyBtn a (env.verifyBtnOk a), Ev.back a])
      else
        (Except.ok false,
         s ++ [Ev.doubleClick a, Ev.findBtn a]
           ++ (if env.clickBtnOk a then [Ev.clickBtn a] else [Ev.clickBtn a, Ev.jsClickBtn a])
           ++ [Ev.verifyBtn a (env.verifyBtnOk a), Ev.back a] ++ [Ev.warnFileView a]) := by
  unfold strategyB
  cases hd : env.doubleClickOk a with
  | false =>
    have hb := runM_stratBBody env a s
    simp [hd] at hb
    rw [runM_pyTry_error hb, runM_handlerWarn]
    simp [hd]
  | true =>
    cases hf : env.findBtnOk a with
    | false =>
      have hb := runM_stratBBody env a s
      simp [hd, hf] at hb
      rw [runM_pyTry_error hb, runM_handlerWarn]
      simp [hd, hf]
    | true =>
      cases hc : env.clickBtnOk a with
      | true =>
        cases hbk : env.backOk a with
        | true =>
          have hb := runM_stratBBody env a s
          simp [hd, hf, hc, hbk] at hb
          rw [runM_pyTry_ok hb]
          simp [hd, hf, hc, hbk]
        | false =>
          have hb := runM_stratBBody env a s
          simp [hd, hf, hc, hbk] at hb
          rw [runM_pyTry_error hb, runM_handlerWarn]
          simp [hd, hf, hc, hbk]
      | false =>
        cases hj : env.jsClickBtnOk a with
        | true =>
          cases hbk : env.backOk a with
          | true =>
            have hb := runM_stratBBody env a s
            simp [hd, hf, hc, hj, hbk] at hb
            rw [runM_pyTry_ok hb]
            simp [hd, hf, hc, hj, hbk]
          | false =>
            have hb := runM_stratBBody env a s
            simp [hd, hf, hc, hj, hbk] at hb
            rw [runM_pyTry_error hb, runM_handlerWarn]
            simp [hd, hf, hc, hj, hbk]
        | false =>
          have hb := runM_stratBBody env a s
          simp [hd, hf, hc, hj] at hb
          rw [runM_pyTry_error hb, runM_handlerWarn]
          simp [hd, hf, hc, hj]

/-! ## Classification of strategy A iterations -/

theorem stratABody_result (env : DriverEnv) (a i : Nat) (s : List Ev) :
    (∃ s1, runM (stratABody env a i) s = (Except.error Fault.driverFault, s1))
      ∨ (∃ s1, runM (stratABody env a i) s = (Except.ok (env.verifyMenuOk a i), s1)) := by
  unfold stratABody
  cases hf : env.findMenuOk a i with
  | false =>
    left
    refine ⟨s ++ [Ev.findMenu a i], ?_⟩
    rw [runM_bind_error (show runM (prim false (Ev.findMenu a i)) s
      = (Except.error Fault.driverFault, s ++ [Ev.findMenu a i]) from by rw [runM_prim]; rfl)]
  | true =>
    rw [runM_bind_ok (show runM (prim true (Ev.findMenu a i)) s
      = (Except.ok (), s ++ [Ev.findMenu a i]) from by rw [runM_prim]; rfl)]
    cases hc : env.clickMenuOk a i with
    | false =>
      cases hj : env.jsClickMenuOk a i with
      | false =>
        left
        refine ⟨s ++ [Ev.findMenu a i] ++ [Ev.clickMenu a i, Ev.jsClickMenu a i], ?_⟩
        rw [runM_bind_error (show runM (clickWithFallback false false
            (Ev.clickMenu a i) (Ev.jsClickMenu a i)) (s ++ [Ev.findMenu a i])
          = (Except.error Fault.driverFault,
             s ++ [Ev.findMenu a i] ++ [Ev.clickMenu a i, Ev.jsClickMenu a i]) from
          by rw [runM_clickWithFallback]; simp)]
      | true =>
        right
        rw [runM_bind_ok (show runM (clickWithFallback false true
            (Ev.clickMenu a i) (Ev.jsClickMenu a i)) (s ++ [Ev.findMenu a i])
          = (Except.ok (),
             s ++ [Ev.findMenu a i] ++ [Ev.clickMenu a i, Ev.jsClickMenu a i]) from
          by rw [runM_clickWithFallback]; simp)]
        rw [runM_bind_ok (runM_emit (Ev.verifyMenu a i (env.verifyMenuOk a i)) _)]
        rw [runM_pure]
        exact ⟨_, rfl⟩
    | true =>
      right
      rw [runM_bind_ok (show runM (clickWithFallback true (env.jsClickMenuOk a i)
          (Ev.clickMenu a i) (Ev.jsClickMenu a i)) (s ++ [Ev.findMenu a i])
        = (Except.ok (), s ++ [Ev.findMenu a i] ++ [Ev.clickMenu a i]) from
        by rw [runM_clickWithFallback]; simp)]
      rw [runM_bind_ok (runM_emit (Ev.verifyMenu a i (env.verifyMenuOk a i)) _)]
      rw [runM_pure]
      exact ⟨_, rfl⟩

theorem stratASel_false {env : DriverEnv} {a i : Nat}
    (hv : env.verifyMenuOk a i = false) (s : List Ev) :
    ∃ s1, runM (stratASel env a i) s = (Except.ok false, s1) := by
  unfold stratASel
  rcases stratABody_result env a i s with ⟨s1, h⟩ | ⟨s1, h⟩
  · exact ⟨s1, by rw [runM_pyTry_error h, runM_pure]⟩
  · rw [hv] at h
    exact ⟨s1, runM_pyTry_ok h⟩

theorem firstTrueM_false {l : List (M Bool)}
    (h : ∀ x ∈ l, ∀ s, ∃ s1, runM x s = (Except.ok false, s1)) :
    ∀ s, ∃ s1, runM (firstTrueM l) s = (Except.ok false, s1) := by
  induction l with
  | nil => exact fun s => ⟨s, rfl⟩
  | cons hd tl ih =>
    intro s
    rcases h hd (List.mem_cons_self hd tl) s with ⟨s1, h1⟩
    rcases ih (fun x hx => h x (List.mem_cons_of_mem hd hx)) s1 with ⟨s2, h2⟩
    refine ⟨s2, ?_⟩
    unfold firstTrueM
    rw [runM_bind_ok h1]
    simpa using h2

theorem strategyA_false {env : DriverEnv} {a : Nat}
    (hA : ∀ i, env.verifyMenuOk a i = false) (s : List Ev) :
    ∃ s1, runM (strategyA env a) s = (Except.ok false, s1) := by
  unfold strategyA
  refine firstTrueM_false ?_ s
  intro x hx
  rcases List.mem_map.mp hx with ⟨i, _, hi⟩
  rw [← hi]
  exact fun s2 => stratASel_false (hA i) s2

theorem strategyB_false {env : DriverEnv} {a : Nat}
    (hB : env.verifyBtnOk a = false) (s : List Ev) :
    ∃ s1, runM (strategyB env a) s = (Except.ok false, s1) := by
  have h := runM_strategyB env a s
  rw [hB] at h
  refine ⟨(runM (strategyB env a) s).2, ?_⟩
  rw [h]
  split
  · rfl
  split
  · rfl
  split
  · rfl
  split
  · rfl
  · rfl

theorem attemptBody_false {env : DriverEnv} {a : Nat}
    (hA : ∀ i, env.verifyMenuOk a i = false) (hB : env.verifyBtnOk a = false) (s : List Ev) :
    (∃ s1, runM (attemptBody env a) s = (Except.error Fault.driverFault, s1))
      ∨ (∃ s1, runM (attemptBody env a) s = (Except.ok false, s1)) := by
  unfold attemptBody
  cases hctx : env.contextClickOk a with
  | false =>
    left
    refine ⟨s ++ [Ev.contextClick a], ?_⟩
    rw [runM_bind_error (show runM (prim false (Ev.contextClick a)) s
      = (Except.error Fault.driverFault, s ++ [Ev.contextClick a]) from by rw [runM_prim]; rfl)]
  | true =>
    right
    rw [runM_bind_ok (show runM (prim true (Ev.contextClick a)) s
      = (Except.ok (), s ++ [Ev.contextClick a]) from by rw [runM_prim]; rfl)]
    rcases strategyA_false hA (s ++ [Ev.contextClick a]) with ⟨sA, hA2⟩
    rw [runM_bind_ok hA2]
    rcases strategyB_false hB sA with ⟨sB, hB2⟩
    refine ⟨sB, ?_⟩
    simpa using hB2

theorem attemptOnce_false {env : DriverEnv} {a : Nat}
    (hA : ∀ i, env.verifyMenuOk a i = false) (hB : env.verifyBtnOk a = false) (s : List Ev) :
    ∃ s1, runM (attemptOnce env a) s = (Except.ok false, s1) := by
  unfold attemptOnce
  rw [runM_bind_ok (runM_emit (Ev.attemptStart a) s)]
  have hr : ∃ s1, runM (pyTry (attemptBody env a)
      (emit (Ev.warnAttempt a) >>= fun _ => pure false)) (s ++ [Ev.attemptStart a])
      = (Except.ok false, s1) := by
    rcases attemptBody_false hA hB (s ++ [Ev.attemptStart a]) with ⟨s1, h⟩ | ⟨s1, h⟩
    · refine ⟨s1 ++ [Ev.warnAttempt a], ?_⟩
      rw [runM_pyTry_error h, runM_bind_ok (runM_emit (Ev.warnAttempt a) s1), runM_pure]
    · exact ⟨s1, runM_pyTry_ok h⟩
  rcases hr with ⟨s1, h1⟩
  rw [runM_bind_ok h1]
  simp only [Bool.false_eq_true, if_false]
  have hbody : ∃ s2, runM (pyTry (prim (env.bodyClickOk a) (Ev.bodyClick a)) (pure ())) s1
      = (Except.ok (), s2) := by
    cases hbc : env.bodyClickOk a with
    | false =>
      refine ⟨s1 ++ [Ev.bodyClick a], ?_⟩
      rw [runM_pyTry_error (show runM (prim false (Ev.bodyClick a)) s1
        = (Except.error Fault.driverFault, s1 ++ [Ev.bodyClick a]) from by rw [runM_prim]; rfl)]
      rw [runM_pure]
    | true =>
      exact ⟨s1 ++ [Ev.bodyClick a], runM_pyTry_ok (by rw [runM_prim]; simp)⟩
  rcases hbody with ⟨s2, h2⟩
  rw [runM_bind_ok h2, runM_pure]
  exact ⟨s2, rfl⟩

/-- When every verification fails, the whole retry sequence returns an
ordinary False. -/
theorem attempt_download_false {env : DriverEnv}
    (hA : ∀ a i, env.verifyMenuOk a i = false) (hB : ∀ a, env.verifyBtnOk a = false) :
    ∃ s1, runAttempt env = (Except.ok false, s1) := by
  unfold runAttempt attempt_download
  rcases attemptOnce_false (fun i => hA 1 i) (hB 1) [] with ⟨s1, h1⟩
  rw [runM_bind_ok h1]
  simp only [Bool.false_eq_true, if_false]
  rw [runM_bind_ok (runM_emit Ev.retryPause s1)]
  rcases attemptOnce_false (fun i => hA 2 i) (hB 2) (s1 ++ [Ev.retryPause]) with ⟨s2, h2⟩
  rw [runM_bind_ok h2]
  simp only [Bool.false_eq_true, if_false]
  rw [runM_pure]
  exact ⟨s2, rfl⟩

/-! ## Facts about the candidate loop -/

theorem runRows_count : ∀ (i : Nat) (l : List Candidate),
    (runRows i l).1 = (l.map (fun c => if (processCandidate c).1 then 1 else 0)).sum := by
  intro i l
  induction l generalizing i with
  | nil => rfl
  | cons c rest ih => simp [runRows, ih (i + 1)]

theorem runRows_mem_src : ∀ (i : Nat) (l : List Candidate) (j : Nat) (e : PEv),
    (j, e) ∈ (runRows i l).2 →
    ∃ k c, l[k]? = some c ∧ j = i + k ∧ e ∈ (processCandidate c).2 := by
  intro i l
  induction l generalizing i with
  | nil => intro j e h; simp [runRows] at h
  | cons c rest ih =>
    intro j e h
    simp only [runRows, List.mem_append, List.mem_map] at h
    rcases h with ⟨e0, he0, heq⟩ | h
    · refine ⟨0, c, by simp, ?_, ?_⟩
      · have := heq.symm
        rw [Prod.ext_iff] at this
        omega
      · have hp : e0 = e := by
          have h2 := heq.symm
          rw [Prod.ext_iff] at h2
          exact h2.2.symm
        rw [← hp]
        exact he0
    · rcases ih (i + 1) j e h with ⟨k, c0, hk, hik, hme⟩
      exact ⟨k + 1, c0, by simpa using hk, by omega, hme⟩

theorem runRows_cover : ∀ (i : Nat) (l : List Candidate) (k : Nat) (c : Candidate),
    l[k]? = some c → ∀ e ∈ (processCandidate c).2, (i + k, e) ∈ (runRows i l).2 := by
  intro i l
  induction l generalizing i with
  | nil => intro k c hk; simp at hk
  | cons c0 rest ih =>
    intro k c hk e he
    cases k with
    | zero =>
      simp only [List.getElem?_cons_zero, Option.some.injEq] at hk
      subst hk
      simp only [runRows, List.mem_append, List.mem_map]
      exact Or.inl ⟨e, he, by simp⟩
    | succ k =>
      simp only [List.getElem?_cons_succ] at hk
      have := ih (i + 1) k c hk e he
      simp only [runRows, List.mem_append]
      right
      have harith : i + (k + 1) = i + 1 + k := by omega
      rw [harith]
      exact this

theorem processCandidate_single (c : Candidate) : ∃ e, (processCandidate c).2 = [e] := by
  unfold processCandidate
  split
  · exact ⟨PEv.rowError, rfl⟩
  · split
    · exact ⟨PEv.skipNoName, rfl⟩
    · exact ⟨PEv.skipNoName, rfl⟩
    · split
      · exact ⟨_, rfl⟩
      · exact ⟨_, rfl⟩

/-- Derived names are already lower-cased, so the extension check of the
code is the case-insensitive one. -/
theorem deriveName_lower {c : Candidate} {nm : List Char} (h : deriveName c = some nm) :
    pyLower nm = nm := by
  unfold deriveName at h
  rcases hft : firstText c.selText (List.range 10) with _ | t
  · rw [hft] at h
    simp only [Option.map_none'] at h
    rcases hfa : firstAttr c.attrVal (List.range 4) with _ | v
    · rw [hfa] at h; simp at h
    · rw [hfa] at h
      simp only [Option.map_some', Option.some.injEq] at h
      rw [← h, pyLower_idem]
  · rw [hft] at h
    simp only [Option.map_some'] at h
    rcases hsh : pyLower (pyStrip t) with _ | ⟨ch, rest⟩
    · rw [hsh] at h
      rcases hfa : firstAttr c.attrVal (List.range 4) with _ | v
      · rw [hfa] at h; simp at h
      · rw [hfa] at h
        simp only [Option.map_some', Option.some.injEq] at h
        rw [← h, pyLower_idem]
    · rw [hsh] at h
      simp only [Option.some.injEq] at h
      rw [← h, ← hsh, pyLower_idem]

theorem searchLoop_coverage (cands : List Candidate) (i : Nat)
    (h : i < min 5 cands.length) : ∃ e, (i, e) ∈ (searchLoop cands).2 := by
  have hlen : i < (cands.take 5).length := by
    simp only [List.length_take]
    omega
  have hc : (cands.take 5)[i]? = some (cands.take 5)[i] := List.getElem?_eq_getElem hlen
  rcases processCandidate_single (cands.take 5)[i] with ⟨e, he⟩
  refine ⟨e, ?_⟩
  have := runRows_cover 0 (cands.take 5) i ((cands.take 5)[i]) hc e (by rw [he]; simp)
  simpa using this

/-! ## Claim C3: the retry controller -/

/-- C3. The retry loop of attempt_download records at most
max_attempts = 2 iteration starts; when the first attempt verifies
success the call returns True with exactly the first iteration on its
trace (no second attempt); and a success of the second attempt after a
failed first also returns True. -/
theorem C3_retry_controller (env : DriverEnv) :
    countStarts (runAttempt env).2 ≤ 2
      ∧ (∀ s1, runM (attemptOnce env 1) [] = (Except.ok true, s1) →
          runAttempt env = (Except.ok true, s1) ∧ countStarts s1 = 1)
      ∧ (∀ s1 s2, runM (attemptOnce env 1) [] = (Except.ok false, s1) →
          runM (attemptOnce env 2) (s1 ++ [Ev.retryPause]) = (Except.ok true, s2) →
          runAttempt env = (Except.ok true, s2)) := by
  refine ⟨?_, ?_, ?_⟩
  · unfold runAttempt attempt_download
    rcases h1 : runM (attemptOnce env 1) [] with ⟨r1, s1⟩
    have hc1 : countStarts s1 = 1 := by
      have h := attemptOnce_starts env 1 []
      rw [h1] at h
      simpa [countStarts] using h
    cases r1 with
    | error e => rw [runM_bind_error h1]; simp [hc1]
    | ok b =>
      rw [runM_bind_ok h1]
      cases b with
      | true => simp [runM_pure, hc1]
      | false =>
        simp only [Bool.false_eq_true, if_false]
        rw [runM_bind_ok (runM_emit Ev.retryPause s1)]
        rcases h2 : runM (attemptOnce env 2) (s1 ++ [Ev.retryPause]) with ⟨r2, s2⟩
        have hc2 : countStarts s2 = 2 := by
          have h := attemptOnce_starts env 2 (s1 ++ [Ev.retryPause])
          rw [h2] at h
          have hp : countStarts (s1 ++ [Ev.retryPause]) = 1 := by
            simp only [countStarts] at hc1
            simp [countStarts, List.countP_append, List.countP_cons, isStart, hc1]
          rw [hp] at h
          exact h
        cases r2 with
        | error e => rw [runM_bind_error h2]; simp [hc2]
        | ok b2 =>
          rw [runM_bind_ok h2]
          cases b2 with
          | true => simp [runM_pure, hc2]
          | false => simp [runM_pure, hc2]
  · intro s1 h1
    constructor
    · unfold runAttempt attempt_download
      rw [runM_bind_ok h1]
      simp [runM_pure]
    · have h := attemptOnce_starts env 1 []
      rw [h1] at h
      simpa [countStarts] using h
  · intro s1 s2 h1 h2
    unfold runAttempt attempt_download
    rw [runM_bind_ok h1]
    simp only [Bool.false_eq_true, if_false]
    rw [runM_bind_ok (runM_emit Ev.retryPause s1)]
    rw [runM_bind_ok h2]
    simp [runM_pure]

theorem C3_retry_controller_witness :
    runAttempt envAllTrue = (Except.ok true,
      [Ev.attemptStart 1, Ev.contextClick 1, Ev.findMenu 1 0, Ev.clickMenu 1 0,
       Ev.verifyMenu 1 0 true])
      ∧ countStarts [Ev.attemptStart 1, Ev.contextClick 1, Ev.findMenu 1 0, Ev.clickMenu 1 0,
          Ev.verifyMenu 1 0 true] = 1 :=
  (C3_retry_controller envAllTrue).2.1
    [Ev.attemptStart 1, Ev.contextClick 1, Ev.findMenu 1 0, Ev.clickMenu 1 0,
     Ev.verifyMenu 1 0 true] (by decide)

/-! ## Claim C7: back navigation in strategy B -/

/-- C7 counterexample. With the detail view opened (double click recorded)
but the download button never located, no back-navigation is recorded on
the whole attempt_download trace: the except of line 264 is reached before
driver.back(). -/
theorem C7_counterexample :
    Ev.doubleClick 1 ∈ (runAttempt envNoBtn).2
      ∧ (runAttempt envNoBtn).2.all (fun e => ! isBack e) = true := by
  constructor
  · decide
  · decide

/-- C7 amended. In strategy B the orchestrator navigates back exactly
when the download trigger was located and activated (directly or by the
synthetic fallback): in that case back-navigation happens regardless of
the verification outcome and even when back itself then raises; when the
trigger cannot be located, and likewise when it is located but both the
direct and the synthetic activation raise, the exception handler is
reached first and the back-navigation is skipped. -/
theorem C7_amended_back_navigation (env : DriverEnv) (a : Nat)
    (hd : env.doubleClickOk a = true) (hf : env.findBtnOk a = true)
    (hc : env.clickBtnOk a = true ∨ env.jsClickBtnOk a = true) :
    Ev.back a ∈ (runM (strategyB env a) []).2
      ∧ (∀ env2 : DriverEnv, ∀ a2 : Nat, env2.findBtnOk a2 = false →
          Ev.back a2 ∉ (runM (strategyB env2 a2) []).2)
      ∧ (∀ env3 : DriverEnv, ∀ a3 : Nat,
          env3.clickBtnOk a3 = false → env3.jsClickBtnOk a3 = false →
          Ev.back a3 ∉ (runM (strategyB env3 a3) []).2) := by
  refine ⟨?_, ?_, ?_⟩
  · rw [runM_strategyB]
    have h1 : ¬ (env.doubleClickOk a = false) := by rw [hd]; simp
    have h2 : ¬ (env.findBtnOk a = false) := by rw [hf]; simp
    have h3 : ¬ (env.clickBtnOk a = false ∧ env.jsClickBtnOk a = false) := by
      rcases hc with hc | hc <;> simp [hc]
    rw [if_neg h1, if_neg h2, if_neg h3]
    by_cases hb : env.backOk a = true
    · rw [if_pos hb]; simp
    · rw [if_neg hb]; simp
  · intro env2 a2 hfb
    rw [runM_strategyB]
    by_cases hd2 : env2.doubleClickOk a2 = false
    · rw [if_pos hd2]; simp
    · rw [if_neg hd2, if_pos hfb]; simp
  · intro env3 a3 hc3 hj3
    rw [runM_strategyB]
    by_cases hd3 : env3.doubleClickOk a3 = false
    · rw [if_pos hd3]; simp
    · rw [if_neg hd3]
      by_cases hf3 : env3.findBtnOk a3 = false
      · rw [if_pos hf3]; simp
      · rw [if_neg hf3, if_pos ⟨hc3, hj3⟩]; simp

theorem C7_amended_back_navigation_witness :
    Ev.back 1 ∈ (runM (strategyB envAllTrue 1) []).2
      ∧ Ev.back 1 ∉ (runM (strategyB envNoBtn 1) []).2
      ∧ Ev.back 1 ∉ (runM (strategyB envNoClick 1) []).2 :=
  ⟨(C7_amended_back_navigation envAllTrue 1 rfl rfl (Or.inl rfl)).1,
   (C7_amended_back_navigation envAllTrue 1 rfl rfl (Or.inl rfl)).2.1 envNoBtn 1 rfl,
   (C7_amended_back_navigation envAllTrue 1 rfl rfl (Or.inl rfl)).2.2 envNoClick 1 rfl rfl⟩

/-! ## Claim C8: error containment -/

/-- C8. Every attempt_download run returns an ordinary boolean and never
propagates a driver fault; when every verification fails the returned
boolean is False (ordinary failure, not an exception); and the candidate
loop reaches every enumerated row (each of the first min(5, n) rows logs
an event), so the run continues past failing candidates. -/
theorem C8_error_containment (env : DriverEnv)
    (hA : ∀ a i, env.verifyMenuOk a i = false) (hB : ∀ a, env.verifyBtnOk a = false) :
    (∀ env2 : DriverEnv, ∃ b s1, runAttempt env2 = (Except.ok b, s1))
      ∧ (∃ s1, runAttempt env = (Except.ok false, s1))
      ∧ (∀ cands : List Candidate, ∀ i, i < min 5 cands.length →
          ∃ e, (i, e) ∈ (searchLoop cands).2) := by
  refine ⟨?_, attempt_download_false hA hB, ?_⟩
  · intro env2
    rcases mtotal_attempt_download env2 [] with ⟨b, s1, h⟩
    exact ⟨b, s1, h⟩
  · intro cands i hi
    exact searchLoop_coverage cands i hi

theorem C8_error_containment_witness :
    (∃ s1, runAttempt envAllFalse = (Except.ok false, s1))
      ∧ (∃ e, (0, e) ∈ (searchLoop [candTxt]).2) :=
  ⟨(C8_error_containment envAllFalse (fun _ _ => rfl) (fun _ => rfl)).2.1,
   (C8_error_containment envAllFalse (fun _ _ => rfl) (fun _ => rfl)).2.2
     [candTxt] 0 (by decide)⟩

/-! ## Claim C2: the extension filter -/

/-- C2. A candidate whose derived display name does not end in .cwa under
case-insensitive comparison gets no attempt_download interaction (no
attempt event is recorded for its row index) and contributes nothing to
the download counter, which equals the sum of the per-row contributions
of the enumerated rows. -/
theorem C2_extension_filter (cands : List Candidate) (i : Nat) (c : Candidate)
    (nm : List Char) (hc : (cands.take 5)[i]? = some c)
    (hd : deriveName c = some nm)
    (hext : endsWithCwa (pyLower nm) = false) :
    (∀ m : List Char, (i, PEv.attempt m) ∉ (searchLoop cands).2)
      ∧ (processCandidate c).1 = false
      ∧ (searchLoop cands).1
          = ((cands.take 5).map (fun d => if (processCandidate d).1 then 1 else 0)).sum := by
  have hego : endsWithCwa nm = false := by rw [← deriveName_lower hd]; exact hext
  have hpc : (processCandidate c).1 = false
      ∧ ∀ m, PEv.attempt m ∉ (processCandidate c).2 := by
    unfold processCandidate
    cases hr : c.rowFault with
    | true => simp
    | false =>
      simp only [Bool.false_eq_true, if_false]
      rw [hd]
      cases nm with
      | nil => simp
      | cons ch rest =>
        simp [hego]
  refine ⟨?_, hpc.1, ?_⟩
  · intro m hmem
    rcases runRows_mem_src 0 (cands.take 5) i (PEv.attempt m) hmem with ⟨k, c0, hk, hik, hme⟩
    have hki : k = i := by omega
    subst hki
    rw [hc] at hk
    have hcc : c0 = c := by
      exact (Option.some.inj hk).symm
    rw [hcc] at hme
    exact hpc.2 m hme
  · unfold searchLoop
    exact runRows_count 0 (cands.take 5)

theorem C2_extension_filter_witness :
    ((0, PEv.attempt "notes.txt".data) ∉ (searchLoop [candTxt]).2)
      ∧ (processCandidate candTxt).1 = false :=
  ⟨(C2_extension_filter [candTxt] 0 candTxt "notes.txt".data rfl (by decide) (by decide)).1
     "notes.txt".data,
   (C2_extension_filter [candTxt] 0 candTxt "notes.txt".data rfl (by decide) (by decide)).2.1⟩

/-! ## Claim C10: only the first five rows -/

/-- C10. The candidate loop is insensitive to everything beyond the first
five result rows: its outcome equals the outcome on the five-row prefix,
every recorded row index is below five, and appending further rows to a
result list that already has five changes nothing. -/
theorem C10_first_five_rows (cands : List Candidate) :
    searchLoop cands = searchLoop (cands.take 5)
      ∧ (∀ i e, (i, e) ∈ (searchLoop cands).2 → i < 5)
      ∧ (∀ extra : List Candidate, 5 ≤ cands.length →
          searchLoop (cands ++ extra) = searchLoop cands) := by
  refine ⟨?_, ?_, ?_⟩
  · unfold searchLoop
    rw [List.take_take]
    norm_num
  · intro i e hmem
    rcases runRows_mem_src 0 (cands.take 5) i e hmem with ⟨k, c, hk, hik, _⟩
    rcases List.getElem?_eq_some_iff.mp hk with ⟨hklen, _⟩
    have hlen : (cands.take 5).length ≤ 5 := by
      simp [List.length_take]
    omega
  · intro extra hlen
    unfold searchLoop
    rw [List.take_append_of_le_length hlen]

theorem C10_first_five_rows_witness :
    searchLoop (List.replicate 6 candTxt)
        = searchLoop ((List.replicate 6 candTxt).take 5)
      ∧ searchLoop (List.replicate 6 candTxt ++ [candTxt])
          = searchLoop (List.replicate 6 candTxt)
      ∧ 0 < 5 :=
  ⟨(C10_first_five_rows (List.replicate 6 candTxt)).1,
   (C10_first_five_rows (List.replicate 6 candTxt)).2.2 [candTxt] (by simp),
   (C10_first_five_rows (List.replicate 6 candTxt)).2.1 0 (PEv.skipExt "notes.txt".data)
     (by decide)⟩
